import Mathlib

/-!
Verification of the resource-summary / RAF pipeline of the repository
(`core/excel_handler.py`, `core/deployment_processor.py`, `core/raf_processor.py`,
`gui/resource_tab.py`).

Modelling conventions:
  * A pandas cell that may be missing/NaN is an `Option` value; numeric cells
    are rationals (`ℚ`).
  * A parsed `Date de MEP` timestamp is the record `MepDate` carrying the
    accessors the code reads from a pandas `Timestamp`
    (`.year`, `.month`, `.day`, `.isocalendar()[1]`); an unparseable date
    (`pd.to_datetime(..., errors="coerce")` giving `NaT`) is `none`.
  * A DataFrame is a list of typed rows, together with a list of column names
    when the code branches on column presence.
  * Row order of a pandas groupby/pivot output is sorted by key in pandas;
    where the verified properties are order-insensitive the model keeps
    encounter order of first occurrence (`dedup`), and the final
    `sort_values` of `calculate_monthly_raf` is a stable insertion sort.
-/

set_option linter.unusedVariables false

/-- A parsed pandas Timestamp, reduced to the fields the pipeline reads:
`.dt.year`, `.dt.month`, `.day`, and `.isocalendar()[1]` (ISO week number). -/
structure MepDate where
  year : Int
  month : Nat
  day : Nat
  isoWeek : Nat
deriving DecidableEq, Repr

/-- `calendar.month_name[m]` / `strftime("%B")`: the English month name. -/
def monthName : Nat → String
  | 1 => "January"
  | 2 => "February"
  | 3 => "March"
  | 4 => "April"
  | 5 => "May"
  | 6 => "June"
  | 7 => "July"
  | 8 => "August"
  | 9 => "September"
  | 10 => "October"
  | 11 => "November"
  | 12 => "December"
  | _ => ""

/-- A raw consumption record as fed to the pivot: `Ressource` and `Projet`
keys with the derived `Charge JH` cell (null when `Soumise (h)` was
missing/non-numeric). -/
structure ConsRow where
  ressource : String
  projet : String
  charge : Option ℚ
deriving DecidableEq, Repr

/-- The (resource, project) group key of a consumption row. -/
def rowKey (r : ConsRow) : String × String := (r.ressource, r.projet)

/-- `ExcelHandler.create_pivot_table(df, "Charge JH", ["Ressource", "Projet"])`:
`df.pivot_table(values=..., index=..., aggfunc="sum").reset_index()`.
One output row per distinct (Ressource, Projet) key; the value is the sum of
the group's non-null charges (pandas sum skips NaN, an all-NaN group sums
to 0). pandas sorts the keys; the verified properties are order-insensitive,
so the model enumerates keys in order of first occurrence. -/
def ExcelHandler.create_pivot_table (rows : List ConsRow) :
    List ((String × String) × ℚ) :=
  ((rows.map rowKey).dedup).map (fun k =>
    (k, ((rows.filter (fun r => decide (rowKey r = k))).filterMap ConsRow.charge).sum))

/-- `DeploymentProcessor.validate_dataframe(df, required_columns)`: the frame
enters only through `df.columns.tolist()`, so it is modelled by its column
list.  `missing = [col for col in required_columns if col not in available]`,
returning `(len(missing) == 0, missing)`. -/
def DeploymentProcessor.validate_dataframe (columns : List String)
    (required : List String) : Bool × List String :=
  let missing := required.filter (fun c => decide (c ∉ columns))
  (missing.length == 0, missing)

/-- A raw cell as read from the `Soumise (h)` column: a numeric value, a
non-numeric text, or an empty (NaN) cell. -/
inductive RawCell where
  | num (v : ℚ)
  | text (s : String)
  | blank
deriving DecidableEq, Repr

/-- Modelled from the spec: `DataProcessor.calculate_charge_jh` lives in
`core/data_processor.py`, which is not among the repository files; per the
spec, for every record workload `Charge JH` is `submitted hours / 8.0`, and a
missing or non-numeric `Soumise (h)` cell propagates as a null workload
rather than raising. -/
def DataProcessor.charge_jh : RawCell → Option ℚ
  | .num v => some (v / 8)
  | .text _ => none
  | .blank => none

/-- Modelled from the spec: `DataProcessor.calculate_charge_jh(df)` applied
row-wise — attaches the `Charge JH` value to every record. -/
def DataProcessor.calculate_charge_jh (rows : List RawCell) : List (Option ℚ) :=
  rows.map DataProcessor.charge_jh

/- ### Generic summation lemmas used by the aggregation claims -/

/-- Splitting a mapped sum along a Boolean filter. -/
theorem sum_map_filter_add_filter_not {α : Type} (p : α → Bool) (g : α → ℚ)
    (l : List α) :
    ((l.filter p).map g).sum + ((l.filter (fun a => !(p a))).map g).sum
      = (l.map g).sum := by
  induction l with
  | nil => simp
  | cons a t ih =>
    cases h : p a <;> simp [List.filter_cons, h] <;> linarith [ih]

/-- Filtering twice: if `p` implies `q`, filtering by `q` first is harmless. -/
theorem filter_filter_of_imp {α : Type} (p q : α → Bool) (l : List α)
    (h : ∀ a, p a = true → q a = true) :
    (l.filter q).filter p = l.filter p := by
  induction l with
  | nil => rfl
  | cons a t ih =>
    by_cases hq : q a = true
    · simp only [List.filter_cons, hq, if_pos trivial]
      by_cases hp : p a = true
      · simp only [List.filter_cons, hp, if_pos trivial, ih]
      · have hp' : p a = false := Bool.eq_false_iff.mpr hp
        simp only [List.filter_cons, hp', Bool.false_eq_true, if_false, ih]
    · have hq' : q a = false := Bool.eq_false_iff.mpr hq
      have hp' : p a = false := by
        cases hpa : p a
        · rfl
        · exact absurd (h a hpa) hq
      simp only [List.filter_cons, hq', hp', Bool.false_eq_true, if_false, ih]

/-- Summing group-by-group over a duplicate-free key list that covers every
row gives the total sum: the heart of the pivot / group-by conservation
arguments. -/
theorem sum_over_partition {α K : Type} [DecidableEq K] (f : α → K) (g : α → ℚ) :
    ∀ (keys : List K) (l : List α), keys.Nodup → (∀ r ∈ l, f r ∈ keys) →
      (keys.map (fun k =>
        ((l.filter (fun r => decide (f r = k))).map g).sum)).sum = (l.map g).sum := by
  intro keys
  induction keys with
  | nil =>
    intro l _ hcov
    have : l = [] := by
      cases l with
      | nil => rfl
      | cons a t => exact absurd (hcov a (List.mem_cons_self a t)) (List.not_mem_nil _)
    subst this; simp
  | cons k ks ih =>
    intro l hnd hcov
    have hndk : k ∉ ks := (List.nodup_cons.mp hnd).1
    have hndks : ks.Nodup := (List.nodup_cons.mp hnd).2
    -- rows not in group k
    set l' := l.filter (fun r => !(decide (f r = k))) with hl'
    have hcov' : ∀ r ∈ l', f r ∈ ks := by
      intro r hr
      have hmem := (List.mem_filter.mp hr).1
      have hne := (List.mem_filter.mp hr).2
      have : f r ≠ k := by
        intro hfk
        rw [hfk] at hne; simp at hne
      rcases List.mem_cons.mp (hcov r hmem) with h | h
      · exact absurd h this
      · exact h
    have hsplit := sum_map_filter_add_filter_not (fun r => decide (f r = k)) g l
    have hrest : ∀ k' ∈ ks,
        (l.filter (fun r => decide (f r = k'))).map g
          = (l'.filter (fun r => decide (f r = k'))).map g := by
      intro k' hk'
      have hkk' : k' ≠ k := by
        intro h; exact hndk (h ▸ hk')
      rw [hl', filter_filter_of_imp]
      intro a ha
      have : f a = k' := of_decide_eq_true ha
      simp [this, hkk']
    calc ((k :: ks).map (fun k =>
            ((l.filter (fun r => decide (f r = k))).map g).sum)).sum
        = ((l.filter (fun r => decide (f r = k))).map g).sum
            + (ks.map (fun k' =>
                ((l.filter (fun r => decide (f r = k'))).map g).sum)).sum := by
          simp
      _ = ((l.filter (fun r => decide (f r = k))).map g).sum
            + (ks.map (fun k' =>
                ((l'.filter (fun r => decide (f r = k'))).map g).sum)).sum := by
          congr 1
          apply congrArg
          exact List.map_congr_left (fun k' hk' => by rw [hrest k' hk'])
      _ = ((l.filter (fun r => decide (f r = k))).map g).sum + (l'.map g).sum := by
          rw [ih l' hndks hcov']
      _ = (l.map g).sum := hsplit

/-- Summing the values of `filterMap` equals summing with nulls read as 0
(pandas NaN-skipping sums). -/
theorem sum_filterMap_eq_sum_getD {α : Type} (f : α → Option ℚ) (l : List α) :
    (l.filterMap f).sum = (l.map (fun a => (f a).getD 0)).sum := by
  induction l with
  | nil => rfl
  | cons a t ih =>
    cases h : f a with
    | none => simp [List.filterMap_cons, h, ih]
    | some v => simp [List.filterMap_cons, h, ih]

/- ### RAF calculation (`calculate_raf`, both implementations) -/

/-- A deployments row as read by `calculate_raf`: `row.get("Niveau de connexion")`
and `row.get("Phase du projet")` — `none` when the column is missing or the
cell is null, otherwise the categorical string. -/
structure DeployRow where
  conn : Option String
  phase : Option String
deriving DecidableEq, Repr

/-- Python truthiness of such a cell: `None` and the empty string are falsy. -/
def truthyCell : Option String → Bool
  | none => false
  | some s => decide (s ≠ "")

/-- Modelled from the spec: the type of `get_raf` of `config/raf_rules.py`,
which is not among the repository files — a fixed rule table mapping
(connection level, phase) to a numeric RAF coefficient, `none` when the pair
is absent.  All RAF definitions below are parameterised by it. -/
def RafRules : Type := String → String → Option ℚ

/-- The body of the row loop of `DeploymentProcessor.calculate_raf`: the RAF
cell stays at its initial null unless both `connection_level` and
`project_phase` are truthy, in which case it becomes
`get_raf(connection_level, project_phase)`. -/
def rafOfRow (rules : RafRules) (r : DeployRow) : Option ℚ :=
  match r.conn, r.phase with
  | some c, some p => if c ≠ "" ∧ p ≠ "" then rules c p else none
  | _, _ => none

/-- An output row of `calculate_raf`: the input row with the appended `RAF`
cell. -/
structure RafRow where
  conn : Option String
  phase : Option String
  raf : Option ℚ
deriving DecidableEq, Repr

/-- `DeploymentProcessor.calculate_raf(df)` of `core/deployment_processor.py`:
copies the frame, adds an `RAF` column initialised to null, and fills it row
by row from the rule table. -/
def DeploymentProcessor.calculate_raf (rules : RafRules) (df : List DeployRow) :
    List RafRow :=
  df.map (fun r => ⟨r.conn, r.phase, rafOfRow rules r⟩)

/-- `RAFProcessor.calculate_raf(df)` of `core/raf_processor.py`, embedded from
its own source lines (they repeat the `DeploymentProcessor` implementation
verbatim). -/
def RAFProcessor.calculate_raf (rules : RafRules) (df : List DeployRow) :
    List RafRow :=
  df.map (fun r =>
    ⟨r.conn, r.phase,
      match r.conn, r.phase with
      | some c, some p => if c ≠ "" ∧ p ≠ "" then rules c p else none
      | _, _ => none⟩)

/- ### Monthly RAF aggregation (`calculate_monthly_raf`) -/

/-- A deployments row as read by `calculate_monthly_raf` and
`create_raf_summary_sheet`: the coerced `Date de MEP` (`none` = `NaT`) and the
`RAF` cell (`none` = null). -/
structure MepRow where
  date : Option MepDate
  raf : Option ℚ
deriving DecidableEq, Repr

/-- The input frame of `calculate_monthly_raf`: the code first branches on
which columns exist, so the column list is carried alongside the rows. -/
structure MepFrame where
  cols : List String
  rows : List MepRow
deriving DecidableEq, Repr

/-- A row of the monthly output table (`Year`, `Month`, `Month Name`,
`Total RAF`). -/
structure MonthlyRow where
  year : Int
  month : Nat
  name : String
  totalRaf : ℚ
deriving DecidableEq, Repr

/-- The output frame of `calculate_monthly_raf`: column names plus rows. -/
structure MonthlyFrame where
  cols : List String
  rows : List MonthlyRow
deriving DecidableEq, Repr

/-- The rows surviving `dropna(subset=["Date de MEP", "RAF"])`, reduced to the
(date, RAF) pairs the grouping reads. -/
def mepGood (rows : List MepRow) : List (MepDate × ℚ) :=
  rows.filterMap (fun r =>
    match r.date, r.raf with
    | some d, some v => some (d, v)
    | _, _ => none)

/-- Boolean order on (Year, Month) keys for `sort_values(["Year", "Month"])`. -/
def ymLe (a b : Int × Nat) : Bool :=
  a.1 < b.1 || (a.1 == b.1 && a.2 ≤ b.2)

/-- Insert into a sorted list (the model's rendering of a stable sort). -/
def insertSorted {α : Type} (le : α → α → Bool) (a : α) : List α → List α
  | [] => [a]
  | b :: t => if le a b then a :: b :: t else b :: insertSorted le a t

/-- A stable insertion sort standing for pandas `sort_values`: the verified
properties only use that the result is a permutation of the input. -/
def sortBy {α : Type} (le : α → α → Bool) (l : List α) : List α :=
  l.foldr (insertSorted le) []

/-- The distinct (Year, Month) group keys of the surviving rows, in encounter
order (`Month Name` is a function of the month, so it adds nothing to the
groupby key). -/
def monthlyKeys (rows : List MepRow) : List (Int × Nat) :=
  ((mepGood rows).map (fun p => (p.1.year, p.1.month))).dedup

/-- One group's `RAF` sum (no null is left after the `dropna`). -/
def monthlyGroupSum (rows : List MepRow) (k : Int × Nat) : ℚ :=
  (((mepGood rows).filter (fun p =>
    decide ((p.1.year, p.1.month) = k))).map Prod.snd).sum

/-- `DeploymentProcessor.calculate_monthly_raf(df)`: with either required
column missing it returns an empty frame with columns
`["Month", "Year", "Month Name", "Total RAF"]`; otherwise it coerces the
dates, drops rows with a missing date or RAF, groups by
(`Year`, `Month`, `Month Name`), sums RAF per group, renames the sum column
to `Total RAF` and sorts by year then month. -/
def DeploymentProcessor.calculate_monthly_raf (df : MepFrame) : MonthlyFrame :=
  if "Date de MEP" ∈ df.cols ∧ "RAF" ∈ df.cols then
    { cols := ["Year", "Month", "Month Name", "Total RAF"],
      rows := (sortBy ymLe (monthlyKeys df.rows)).map (fun k =>
        { year := k.1, month := k.2, name := monthName k.2,
          totalRaf := monthlyGroupSum df.rows k }) }
  else
    { cols := ["Month", "Year", "Month Name", "Total RAF"], rows := [] }

/- ### RAF summary grouping (`create_raf_summary_sheet`) -/

/-- The rows with a parseable date, as (timestamp, RAF) — rows whose coerced
`Date de MEP` is `NaT` never match a `dt.year == year` / `dt.month == month`
mask, so only these take part in the year/month grouping. -/
def datedRows (rows : List MepRow) : List (MepDate × Option ℚ) :=
  rows.filterMap (fun r => r.date.map (fun d => (d, r.raf)))

/-- pandas summation over an optional-valued RAF column: null adds nothing
(`Series.sum()` skips NaN; the week loop adds `row["RAF"]` only when
`pd.notna`). -/
def optSum (l : List (MepDate × Option ℚ)) : ℚ :=
  (l.map (fun p => p.2.getD 0)).sum

/-- `deployments_df["Date de MEP"].dt.year.dropna().unique()`, in encounter
order. -/
def yearsOf (rows : List MepRow) : List Int :=
  ((datedRows rows).map (fun p => p.1.year)).dedup

/-- `year_data["Date de MEP"].dt.month.unique()` for one year, in encounter
order. -/
def monthsOf (rows : List MepRow) (y : Int) : List Nat :=
  (((datedRows rows).filter (fun p => decide (p.1.year = y))).map
    (fun p => p.1.month)).dedup

/-- `month_data`: the rows of one (year, month) bucket. -/
def monthData (rows : List MepRow) (y : Int) (m : Nat) :
    List (MepDate × Option ℚ) :=
  (datedRows rows).filter (fun p => decide (p.1.year = y ∧ p.1.month = m))

/-- The keys of `week_groups`: the distinct ISO week numbers of a month
bucket, in encounter (insertion) order. -/
def weekNums (rows : List MepRow) (y : Int) (m : Nat) : List Nat :=
  ((monthData rows y m).map (fun p => p.1.isoWeek)).dedup

/-- The rows of one ISO-week group within a month bucket. -/
def weekRows (rows : List MepRow) (y : Int) (m : Nat) (w : Nat) :
    List (MepDate × Option ℚ) :=
  (monthData rows y m).filter (fun p => decide (p.1.isoWeek = w))

/-- `min(days) if days else 0` of the week loop. -/
def listMin : List Nat → Nat
  | [] => 0
  | d :: ds => ds.foldl min d

/-- `max(days) if days else 0` of the week loop. -/
def listMax : List Nat → Nat
  | [] => 0
  | d :: ds => ds.foldl max d

/-- An entry of `weeks_data`: week number, the week's RAF sum, and the
min/max day-of-month used for the `"(DD to DD)"` label. -/
structure WeekEntry where
  week : Nat
  raf : ℚ
  minDay : Nat
  maxDay : Nat
deriving DecidableEq, Repr

/-- A value of `months_in_year`: the dict is keyed by the month name;
the month number the name came from is kept alongside (the rendering
recovers it as `list(calendar.month_name).index(name)`). -/
structure MonthEntry where
  month : Nat
  name : String
  totalRaf : ℚ
  weeks : List WeekEntry
deriving DecidableEq, Repr

/-- An entry of `year_month_groups`. -/
structure YearEntry where
  year : Int
  months : List MonthEntry
deriving DecidableEq, Repr

/-- The body of the `for week_num, week_data in week_groups.items()` loop:
a week entry is produced only when the week's RAF sum is strictly positive
(`if raf_value > 0`). -/
def weekEntry (rows : List MepRow) (y : Int) (m : Nat) (w : Nat) :
    Option WeekEntry :=
  if 0 < optSum (weekRows rows y m w) then
    some ⟨w, optSum (weekRows rows y m w),
      listMin ((weekRows rows y m w).map (fun p => p.1.day)),
      listMax ((weekRows rows y m w).map (fun p => p.1.day))⟩
  else none

/-- `weeks_data` of one month bucket. -/
def weeksData (rows : List MepRow) (y : Int) (m : Nat) : List WeekEntry :=
  (weekNums rows y m).filterMap (weekEntry rows y m)

/-- The body of the month loop: the month is skipped when its RAF total is
exactly zero (`if month_raf == 0: continue`), and again when no week entry
survived the positivity filter (`if weeks_data:`). -/
def monthEntry (rows : List MepRow) (y : Int) (m : Nat) : Option MonthEntry :=
  if optSum (monthData rows y m) = 0 then none
  else if weeksData rows y m = [] then none
  else some ⟨m, monthName m, optSum (monthData rows y m), weeksData rows y m⟩

/-- `months_in_year` for one year. -/
def monthsEntries (rows : List MepRow) (y : Int) : List MonthEntry :=
  (monthsOf rows y).filterMap (monthEntry rows y)

/-- `year_month_groups` as built by `RAFProcessor.create_raf_summary_sheet`
before rendering: a year is added only when it has surviving months
(`if months_in_year:`).  The rendering then walks this structure sorted by
year, month-name index and week label; the verified properties are
membership properties, insensitive to that ordering. -/
def RAFProcessor.raf_summary_groups (rows : List MepRow) : List YearEntry :=
  (yearsOf rows).filterMap (fun y =>
    if monthsEntries rows y = [] then none
    else some ⟨y, monthsEntries rows y⟩)

/- ### High CA sheet and Ecart fills -/

/-- A row of the final resource summary as consumed by the High CA filter:
the stringified first cell (`Resource/ PROJET`) and the
`Montant total (Contrat) (Commande)` cell. -/
structure SummaryRow where
  firstCell : String
  montant : Option ℚ
deriving DecidableEq, Repr

/-- The final `result_df` together with whether the contract-amount column
survived the `drop(columns=...)` step. -/
structure SummaryFrame where
  hasMontant : Bool
  rows : List SummaryRow
deriving DecidableEq, Repr

/-- `ResourceSummaryWorker.run` of `gui/resource_tab.py`, High CA sheet:
`result_df[result_df["Montant total (Contrat) (Commande)"] > 3000]` when the
column exists, an empty slice (`result_df.iloc[0:0]`) otherwise.  A null
amount compares False against 3000 in pandas, so such rows are excluded. -/
def ResourceSummaryWorker.high_ca (df : SummaryFrame) : List SummaryRow :=
  if df.hasMontant then
    df.rows.filter (fun r =>
      match r.montant with
      | some v => decide (3000 < v)
      | none => false)
  else []

/-- `cell_value.startswith("    ")`: whether the stringified first cell of a
row carries the four-space project indent (spelled out on the character list
so that it evaluates). -/
def isIndented (s : String) : Bool :=
  match s.data with
  | ' ' :: ' ' :: ' ' :: ' ' :: _ => true
  | _ => false

/-- A worksheet cell value as tested by `isinstance(value, (int, float))`:
numeric, text, or empty. -/
inductive XlCell where
  | num (v : ℚ)
  | text (s : String)
  | empty
deriving DecidableEq, Repr

/-- Fill color `C6E0B4` (light green). -/
def lightGreen : String := "C6E0B4"

/-- Fill color `F8CBAD` (light red). -/
def lightRed : String := "F8CBAD"

/-- One iteration of the formatting loop of `ExcelHandler.write_excel`,
reduced to the Ecart fill decision: given whether the frame has an `Ecart`
column, the stringified first cell of the row, and the row's Ecart cell,
the fill applied (`none` = no fill).  Non-indented (resource) rows are
skipped by the `continue`; on an indented row a numeric value gets light
green when strictly positive, light red when strictly negative, and no fill
at zero or for non-numeric cells. -/
def ExcelHandler.write_excel_ecart_fill (hasEcart : Bool) (firstCell : String)
    (c : XlCell) : Option String :=
  if hasEcart && !(isIndented firstCell) then none
  else if hasEcart then
    match c with
    | .num v => if 0 < v then some lightGreen else if v < 0 then some lightRed else none
    | _ => none
  else none

/-- The same Ecart fill decision as repeated inside
`ExcelHandler.write_multiple_sheets`. -/
def ExcelHandler.write_multiple_sheets_ecart_fill (hasEcart : Bool)
    (firstCell : String) (c : XlCell) : Option String :=
  if hasEcart && !(isIndented firstCell) then none
  else if hasEcart then
    match c with
    | .num v => if 0 < v then some lightGreen else if v < 0 then some lightRed else none
    | _ => none
  else none

/- ### Permutation facts about the model's sort -/

/-- Inserting is a permutation of consing. -/
theorem insertSorted_perm {α : Type} (le : α → α → Bool) (a : α) (l : List α) :
    (insertSorted le a l).Perm (a :: l) := by
  induction l with
  | nil => exact List.Perm.refl _
  | cons b t ih =>
    by_cases h : le a b = true
    · simp only [insertSorted, h, if_pos trivial]
      exact List.Perm.refl _
    · have h' : le a b = false := Bool.eq_false_iff.mpr h
      simp only [insertSorted, h', Bool.false_eq_true, if_false]
      exact List.Perm.trans (List.Perm.cons b ih) (List.Perm.swap a b t)

/-- The sort permutes its input. -/
theorem sortBy_perm {α : Type} (le : α → α → Bool) (l : List α) :
    (sortBy le l).Perm l := by
  induction l with
  | nil => exact List.Perm.refl _
  | cons a t ih =>
    exact List.Perm.trans (insertSorted_perm le a (sortBy le t)) (List.Perm.cons a ih)

/- ### The claims -/

/-- The key column of the pivot output is exactly the deduplicated key list
of the input. -/
theorem pivot_keys_eq_dedup (rows : List ConsRow) :
    (ExcelHandler.create_pivot_table rows).map Prod.fst
      = (rows.map rowKey).dedup := by
  unfold ExcelHandler.create_pivot_table
  rw [List.map_map]
  have h : ∀ x ∈ (rows.map rowKey).dedup,
      (Prod.fst ∘ fun k => (k,
        ((rows.filter (fun r => decide (rowKey r = k))).filterMap ConsRow.charge).sum)) x
        = id x := fun _ _ => rfl
  rw [List.map_congr_left h, List.map_id]

/-- C1: pivoting by (Ressource, Projet) with sum aggregation conserves mass —
the group sums of `create_pivot_table` total exactly the non-null input
charges — and each distinct (Ressource, Projet) pair occurring in the input
appears exactly once among the output keys. -/
theorem c1_pivot_mass_and_keys (rows : List ConsRow) :
    ((ExcelHandler.create_pivot_table rows).map Prod.snd).sum
        = (rows.filterMap ConsRow.charge).sum
    ∧ ((ExcelHandler.create_pivot_table rows).map Prod.fst).Nodup
    ∧ ∀ k : String × String,
        k ∈ (ExcelHandler.create_pivot_table rows).map Prod.fst
          ↔ k ∈ rows.map rowKey := by
  refine ⟨?_, ?_, ?_⟩
  · unfold ExcelHandler.create_pivot_table
    rw [List.map_map]
    have h2 : ∀ k ∈ (rows.map rowKey).dedup,
        (Prod.snd ∘ fun k => (k,
            ((rows.filter (fun r => decide (rowKey r = k))).filterMap ConsRow.charge).sum)) k
          = ((rows.filter (fun r => decide (rowKey r = k))).map
              (fun r => (ConsRow.charge r).getD 0)).sum := by
      intro k _
      exact sum_filterMap_eq_sum_getD ConsRow.charge _
    rw [List.map_congr_left h2]
    rw [sum_over_partition rowKey (fun r => (ConsRow.charge r).getD 0)
      ((rows.map rowKey).dedup) rows (List.nodup_dedup _)
      (fun r hr => List.mem_dedup.mpr (List.mem_map_of_mem rowKey hr))]
    exact (sum_filterMap_eq_sum_getD ConsRow.charge rows).symm
  · rw [pivot_keys_eq_dedup]
    exact List.nodup_dedup _
  · intro k
    rw [pivot_keys_eq_dedup]
    exact List.mem_dedup

/-- C2: `calculate_raf` returns one RAF cell per input row (it never fails
and the `RAF` column is always added), and a row's RAF is null exactly when
the connection level is empty/falsy, the phase is empty/falsy, or the pair is
absent from the rule table; otherwise it is the rule-table value of the pair. -/
theorem c2_calculate_raf_null_iff (rules : RafRules) (df : List DeployRow) :
    (DeploymentProcessor.calculate_raf rules df).length = df.length
    ∧ (DeploymentProcessor.calculate_raf rules df).map RafRow.raf
        = df.map (rafOfRow rules)
    ∧ (∀ r : DeployRow,
        (rafOfRow rules r = none ↔
          truthyCell r.conn = false ∨ truthyCell r.phase = false
            ∨ rules (r.conn.getD "") (r.phase.getD "") = none))
    ∧ (∀ r : DeployRow, truthyCell r.conn = true → truthyCell r.phase = true →
        rafOfRow rules r = rules (r.conn.getD "") (r.phase.getD "")) := by
  refine ⟨by simp [DeploymentProcessor.calculate_raf],
    by simp [DeploymentProcessor.calculate_raf], ?_, ?_⟩
  · rintro ⟨conn, phase⟩
    cases conn with
    | none => simp [rafOfRow, truthyCell]
    | some c =>
      cases phase with
      | none => simp [rafOfRow, truthyCell]
      | some p =>
        by_cases hc : c = ""
        · subst hc; simp [rafOfRow, truthyCell]
        · by_cases hp : p = ""
          · subst hp; simp [rafOfRow, truthyCell, hc]
          · simp [rafOfRow, truthyCell, hc, hp]
  · rintro ⟨conn, phase⟩ hc hp
    cases conn with
    | none => simp [truthyCell] at hc
    | some c =>
      cases phase with
      | none => simp [truthyCell] at hp
      | some p =>
        simp only [truthyCell, decide_eq_true_eq] at hc hp
        simp [rafOfRow, hc, hp]

/-- The concrete rule table of the spec's scenario:
`{("A", "B"): 5}`. -/
def exRules : RafRules := fun c p =>
  if c = "A" ∧ p = "B" then some 5 else none

/-- Witness for C2 at the spec's concrete scenario: a row with connection
"A" and phase "B" under rule table `{("A","B"): 5}` gets RAF 5. -/
theorem c2_calculate_raf_null_iff_witness :
    rafOfRow exRules ⟨some "A", some "B"⟩ = some 5 := by
  have h := (c2_calculate_raf_null_iff exRules [⟨some "A", some "B"⟩]).2.2.2
    ⟨some "A", some "B"⟩ (by decide) (by decide)
  rw [h]
  simp [exRules]

/-- C9: the two textually-duplicated implementations of `calculate_raf`
(`DeploymentProcessor` and `RAFProcessor`) agree on every input frame and
every rule table. -/
theorem c9_raf_implementations_agree (rules : RafRules) (df : List DeployRow) :
    DeploymentProcessor.calculate_raf rules df = RAFProcessor.calculate_raf rules df := by
  unfold DeploymentProcessor.calculate_raf RAFProcessor.calculate_raf rafOfRow
  rfl

/-- C5: `validate_dataframe` returns `(True, [])` exactly when every required
column is present; the missing list contains exactly the required names that
are absent, as a sublist of (hence in the relative order of) the required
list; and the Boolean is true exactly when the missing list is empty. -/
theorem c5_validate_dataframe (columns required : List String) :
    (DeploymentProcessor.validate_dataframe columns required = (true, [])
        ↔ ∀ c ∈ required, c ∈ columns)
    ∧ (∀ c, c ∈ (DeploymentProcessor.validate_dataframe columns required).2
        ↔ c ∈ required ∧ c ∉ columns)
    ∧ (DeploymentProcessor.validate_dataframe columns required).2.Sublist required
    ∧ ((DeploymentProcessor.validate_dataframe columns required).1 = true
        ↔ (DeploymentProcessor.validate_dataframe columns required).2 = []) := by
  unfold DeploymentProcessor.validate_dataframe
  refine ⟨?_, ?_, ?_, ?_⟩
  · rw [Prod.ext_iff]
    simp only [beq_iff_eq, List.length_eq_zero, List.filter_eq_nil_iff,
      decide_eq_true_eq]
    constructor
    · intro h c hc
      by_contra hnc
      exact h.1 c hc hnc
    · intro h
      exact ⟨fun c hc hnc => hnc (h c hc), fun c hc hnc => hnc (h c hc)⟩
  · intro c
    simp [List.mem_filter]
  · exact List.filter_sublist _
  · simp [beq_iff_eq, List.length_eq_zero]

/-- Witness for C5 on the tests' concrete frames: columns `["a", "b"]`
validate against required `["a", "b"]` and fail against `["a", "c"]` with
`"c"` reported missing. -/
theorem c5_validate_dataframe_witness :
    DeploymentProcessor.validate_dataframe ["a", "b"] ["a", "b"] = (true, [])
    ∧ ("c" ∈ (DeploymentProcessor.validate_dataframe ["a", "b"] ["a", "c"]).2
        ↔ "c" ∈ ["a", "c"] ∧ "c" ∉ ["a", "b"]) :=
  ⟨(c5_validate_dataframe ["a", "b"] ["a", "b"]).1.mpr (by decide),
   (c5_validate_dataframe ["a", "b"] ["a", "c"]).2.1 "c"⟩

/-- C6: the charge calculation yields workload `h / 8` for a numeric
submitted-hours value and a null workload for a missing or non-numeric one
(no exception); the test vector `[8, 16]` yields `[1, 2]`. -/
theorem c6_charge_jh_division :
    (∀ h : ℚ, DataProcessor.charge_jh (.num h) = some (h / 8))
    ∧ DataProcessor.charge_jh .blank = none
    ∧ (∀ s, DataProcessor.charge_jh (.text s) = none)
    ∧ DataProcessor.calculate_charge_jh [.num 8, .num 16] = [some 1, some 2] := by
  refine ⟨fun h => rfl, rfl, fun s => rfl, ?_⟩
  show [some ((8:ℚ) / 8), some ((16:ℚ) / 8)] = [some 1, some 2]
  norm_num

/-- C10: with the `Date de MEP` column or the `RAF` column missing,
`calculate_monthly_raf` returns (without raising) an empty frame whose
columns are exactly `["Month", "Year", "Month Name", "Total RAF"]`. -/
theorem c10_monthly_raf_missing_columns (df : MepFrame)
    (h : "Date de MEP" ∉ df.cols ∨ "RAF" ∉ df.cols) :
    DeploymentProcessor.calculate_monthly_raf df
      = { cols := ["Month", "Year", "Month Name", "Total RAF"], rows := [] } := by
  unfold DeploymentProcessor.calculate_monthly_raf
  rw [if_neg]
  tauto

/-- Witness for C10: a frame holding only an `RAF` column. -/
theorem c10_monthly_raf_missing_columns_witness :
    DeploymentProcessor.calculate_monthly_raf ⟨["RAF"], []⟩
      = { cols := ["Month", "Year", "Month Name", "Total RAF"], rows := [] } :=
  c10_monthly_raf_missing_columns ⟨["RAF"], []⟩ (Or.inl (by simp))

/-- Two deployments in January 2023 whose RAF values cancel to zero. -/
def c4frame : MepFrame :=
  { cols := ["Date de MEP", "RAF"],
    rows := [⟨some ⟨2023, 1, 1, 52⟩, some 1⟩, ⟨some ⟨2023, 1, 2, 52⟩, some (-1)⟩] }

/-- Counterexample for C4: `calculate_monthly_raf` drops no periods at all —
a month whose RAF values sum to exactly zero still appears in the output (with
`Total RAF = 0`), contrary to the claim that zero-sum periods are the ones
dropped. -/
theorem c4_counterexample :
    (DeploymentProcessor.calculate_monthly_raf c4frame).rows
      = [{ year := 2023, month := 1, name := "January", totalRaf := 0 }] := by
  have h : (DeploymentProcessor.calculate_monthly_raf c4frame).rows
      = [{ year := 2023, month := 1, name := "January",
           totalRaf := ([1, -1] : List ℚ).sum }] := rfl
  rw [h]
  norm_num

/-- C4 (amended): the round-trip holds with nothing dropped — for every frame
with both columns, the `Total RAF` column of `calculate_monthly_raf` sums to
the sum of all non-null RAF values over rows whose date parsed, and every
such row's (year, month) period appears in the output (zero-sum periods
included). -/
theorem c4_amended_roundtrip (df : MepFrame)
    (h1 : "Date de MEP" ∈ df.cols) (h2 : "RAF" ∈ df.cols) :
    ((DeploymentProcessor.calculate_monthly_raf df).rows.map MonthlyRow.totalRaf).sum
        = ((mepGood df.rows).map Prod.snd).sum
    ∧ ∀ p ∈ mepGood df.rows,
        ∃ r ∈ (DeploymentProcessor.calculate_monthly_raf df).rows,
          r.year = p.1.year ∧ r.month = p.1.month := by
  have hif : DeploymentProcessor.calculate_monthly_raf df =
      { cols := ["Year", "Month", "Month Name", "Total RAF"],
        rows := (sortBy ymLe (monthlyKeys df.rows)).map (fun k =>
          { year := k.1, month := k.2, name := monthName k.2,
            totalRaf := monthlyGroupSum df.rows k }) } := by
    unfold DeploymentProcessor.calculate_monthly_raf
    rw [if_pos ⟨h1, h2⟩]
  rw [hif]
  constructor
  · rw [List.map_map]
    have hco : (MonthlyRow.totalRaf ∘ fun k : Int × Nat =>
        ({ year := k.1, month := k.2, name := monthName k.2,
           totalRaf := monthlyGroupSum df.rows k } : MonthlyRow))
        = fun k => monthlyGroupSum df.rows k := rfl
    rw [hco]
    rw [((sortBy_perm ymLe (monthlyKeys df.rows)).map
      (fun k => monthlyGroupSum df.rows k)).sum_eq]
    unfold monthlyGroupSum monthlyKeys
    exact sum_over_partition (fun p : MepDate × ℚ => (p.1.year, p.1.month))
      Prod.snd
      ((mepGood df.rows).map (fun p => (p.1.year, p.1.month))).dedup
      (mepGood df.rows)
      (List.nodup_dedup _)
      (fun r hr => List.mem_dedup.mpr (List.mem_map_of_mem _ hr))
  · intro p hp
    have hk : (p.1.year, p.1.month) ∈ monthlyKeys df.rows := by
      unfold monthlyKeys
      exact List.mem_dedup.mpr (List.mem_map_of_mem _ hp)
    have hk2 : (p.1.year, p.1.month) ∈ sortBy ymLe (monthlyKeys df.rows) :=
      ((sortBy_perm ymLe (monthlyKeys df.rows)).mem_iff).mpr hk
    exact ⟨_, List.mem_map_of_mem _ hk2, rfl, rfl⟩

/-- Witness for C4 (amended) at the cancelling concrete frame: the output
column sums to the input total 0. -/
theorem c4_amended_roundtrip_witness :
    ((DeploymentProcessor.calculate_monthly_raf c4frame).rows.map
        MonthlyRow.totalRaf).sum
      = ((mepGood c4frame.rows).map Prod.snd).sum :=
  (c4_amended_roundtrip c4frame (by simp [c4frame]) (by simp [c4frame])).1

/-- A produced week entry carries the week number it was grouped under. -/
theorem weekEntry_week {rows : List MepRow} {y : Int} {m w : Nat} {e : WeekEntry}
    (h : weekEntry rows y m w = some e) : e.week = w := by
  unfold weekEntry at h
  split_ifs at h
  rw [← Option.some.inj h]

/-- A produced week entry has a strictly positive RAF sum. -/
theorem weekEntry_pos {rows : List MepRow} {y : Int} {m w : Nat} {e : WeekEntry}
    (h : weekEntry rows y m w = some e) : 0 < optSum (weekRows rows y m w) := by
  unfold weekEntry at h
  split_ifs at h with h0
  exact h0

/-- A produced month entry carries the month it was grouped under. -/
theorem monthEntry_month {rows : List MepRow} {y : Int} {m : Nat} {e : MonthEntry}
    (h : monthEntry rows y m = some e) : e.month = m := by
  unfold monthEntry at h
  split_ifs at h
  rw [← Option.some.inj h]

/-- A single deployment on 2023-01-03 (ISO week 1) with RAF −5. -/
def c3rows : List MepRow := [⟨some ⟨2023, 1, 3, 1⟩, some (-5)⟩]

/-- Counterexample for C3: a month whose RAF total is −5 (nonzero) and whose
single week sums to −5 (nonzero, negative) is dropped entirely from the
summary grouping — the code keeps a week only when its sum is strictly
positive, so negative weeks are NOT kept, and a nonzero-sum month can be
omitted. -/
theorem c3_counterexample :
    optSum (monthData c3rows 2023 1) = -5
    ∧ optSum (weekRows c3rows 2023 1 1) = -5
    ∧ RAFProcessor.raf_summary_groups c3rows = [] := by
  refine ⟨?_, ?_, ?_⟩
  · have h : optSum (monthData c3rows 2023 1) = ([-5] : List ℚ).sum := rfl
    rw [h]; norm_num
  · have h : optSum (weekRows c3rows 2023 1 1) = ([-5] : List ℚ).sum := rfl
    rw [h]; norm_num
  · have hw : weekEntry c3rows 2023 1 1 = none := by
      unfold weekEntry
      rw [if_neg]
      intro hpos
      have h : optSum (weekRows c3rows 2023 1 1) = ([-5] : List ℚ).sum := rfl
      rw [h] at hpos
      norm_num at hpos
    have hm : monthEntry c3rows 2023 1 = none := by
      unfold monthEntry
      have hwd : weeksData c3rows 2023 1 = [] := by
        unfold weeksData
        have hwn : weekNums c3rows 2023 1 = [1] := rfl
        rw [hwn, List.filterMap_cons, hw]
        rfl
      rw [hwd]
      split_ifs with h1 h2
      · rfl
      · rfl
      · exact absurd rfl h2
    have hme : monthsEntries c3rows 2023 = [] := by
      unfold monthsEntries
      have hmo : monthsOf c3rows 2023 = [1] := rfl
      rw [hmo, List.filterMap_cons, hm]
      rfl
    unfold RAFProcessor.raf_summary_groups
    have hys : yearsOf c3rows = [2023] := rfl
    rw [hys, List.filterMap_cons, if_pos hme]
    rfl

/-- C3 (amended): in the RAF summary grouping, a week bucket is kept exactly
when its RAF sum is strictly positive (zero and negative sums are both
dropped); a month bucket is kept exactly when its RAF total is nonzero and at
least one of its weeks has a strictly positive sum; a year is kept exactly
when it has a surviving month. -/
theorem c3_amended_retention (rows : List MepRow) (y : Int) (m w : Nat) :
    (monthEntry rows y m ≠ none ↔
      optSum (monthData rows y m) ≠ 0
        ∧ ∃ w2 ∈ weekNums rows y m, 0 < optSum (weekRows rows y m w2))
    ∧ (w ∈ (weeksData rows y m).map WeekEntry.week ↔
        w ∈ weekNums rows y m ∧ 0 < optSum (weekRows rows y m w))
    ∧ (m ∈ (monthsEntries rows y).map MonthEntry.month ↔
        m ∈ monthsOf rows y ∧ monthEntry rows y m ≠ none)
    ∧ (y ∈ (RAFProcessor.raf_summary_groups rows).map YearEntry.year ↔
        y ∈ yearsOf rows ∧ monthsEntries rows y ≠ []) := by
  have hweeksne : weeksData rows y m ≠ [] ↔
      ∃ w2 ∈ weekNums rows y m, 0 < optSum (weekRows rows y m w2) := by
    unfold weeksData
    rw [Ne, List.filterMap_eq_nil_iff]
    push_neg
    constructor
    · rintro ⟨a, ha, hne⟩
      refine ⟨a, ha, ?_⟩
      by_contra h0
      apply hne
      unfold weekEntry
      rw [if_neg h0]
    · rintro ⟨a, ha, h0⟩
      refine ⟨a, ha, ?_⟩
      unfold weekEntry
      rw [if_pos h0]
      simp
  have hmonth : monthEntry rows y m ≠ none ↔
      optSum (monthData rows y m) ≠ 0 ∧ weeksData rows y m ≠ [] := by
    unfold monthEntry
    split_ifs with h1 h2
    · simp [h1]
    · simp [h2]
    · simp [h1, h2]
  refine ⟨by rw [hmonth, hweeksne], ?_, ?_, ?_⟩
  · constructor
    · intro hw
      rcases List.mem_map.mp hw with ⟨e, he, hew⟩
      rcases List.mem_filterMap.mp he with ⟨a, ha, hae⟩
      have haw : a = w := by rw [← hew, weekEntry_week hae]
      subst haw
      exact ⟨ha, weekEntry_pos hae⟩
    · rintro ⟨hw, h0⟩
      apply List.mem_map.mpr
      refine ⟨⟨w, optSum (weekRows rows y m w),
        listMin ((weekRows rows y m w).map (fun p => p.1.day)),
        listMax ((weekRows rows y m w).map (fun p => p.1.day))⟩, ?_, rfl⟩
      apply List.mem_filterMap.mpr
      refine ⟨w, hw, ?_⟩
      unfold weekEntry
      rw [if_pos h0]
  · constructor
    · intro hm
      rcases List.mem_map.mp hm with ⟨e, he, hem⟩
      rcases List.mem_filterMap.mp he with ⟨a, ha, hae⟩
      have haw : a = m := by rw [← hem, monthEntry_month hae]
      subst haw
      exact ⟨ha, by rw [hae]; simp⟩
    · rintro ⟨ha, hne⟩
      rcases Option.ne_none_iff_exists'.mp hne with ⟨e, he⟩
      apply List.mem_map.mpr
      exact ⟨e, List.mem_filterMap.mpr ⟨m, ha, he⟩, monthEntry_month he⟩
  · unfold RAFProcessor.raf_summary_groups
    constructor
    · intro hy
      rcases List.mem_map.mp hy with ⟨e, he, hey⟩
      rcases List.mem_filterMap.mp he with ⟨a, ha, hae⟩
      by_cases hz : monthsEntries rows a = []
      · rw [if_pos hz] at hae
        exact Option.noConfusion hae
      · rw [if_neg hz] at hae
        have hea := Option.some.inj hae
        have hay : a = y := by rw [← hey, ← hea]
        subst hay
        exact ⟨ha, hz⟩
    · rintro ⟨ha, hz⟩
      apply List.mem_map.mpr
      refine ⟨⟨y, monthsEntries rows y⟩, List.mem_filterMap.mpr ⟨y, ha, ?_⟩, rfl⟩
      rw [if_neg hz]

/-- C7: the High CA sheet holds exactly the final-summary rows whose contract
amount is strictly greater than 3000 (null amounts excluded), in their
original order (a sublist of the summary), and is empty when the
contract-amount column is absent. -/
theorem c7_high_ca_threshold (df : SummaryFrame) :
    (∀ r, r ∈ ResourceSummaryWorker.high_ca df ↔
        (df.hasMontant = true ∧ r ∈ df.rows ∧ ∃ v, r.montant = some v ∧ 3000 < v))
    ∧ (ResourceSummaryWorker.high_ca df).Sublist df.rows
    ∧ (df.hasMontant = false → ResourceSummaryWorker.high_ca df = []) := by
  rcases df with ⟨hm, rows⟩
  cases hm
  · refine ⟨?_, ?_, fun _ => rfl⟩
    · intro r
      unfold ResourceSummaryWorker.high_ca
      simp
    · show (ResourceSummaryWorker.high_ca ⟨false, rows⟩).Sublist rows
      unfold ResourceSummaryWorker.high_ca
      simp
  · refine ⟨?_, ?_, fun h => by cases h⟩
    · intro r
      unfold ResourceSummaryWorker.high_ca
      rw [if_pos rfl, List.mem_filter]
      constructor
      · rintro ⟨hr, hp⟩
        refine ⟨rfl, hr, ?_⟩
        cases hmo : r.montant with
        | none => rw [hmo] at hp; exact absurd hp (by simp)
        | some v =>
          rw [hmo] at hp
          exact ⟨v, rfl, by simpa using hp⟩
      · rintro ⟨-, hr, v, hv, h3⟩
        refine ⟨hr, ?_⟩
        rw [hv]
        simpa using h3
    · unfold ResourceSummaryWorker.high_ca
      rw [if_pos rfl]
      exact List.filter_sublist _

/-- The final summary frame of the witness scenario: an indented project row
with contract amount 5000 and one with amount 10. -/
def c7frame : SummaryFrame :=
  ⟨true, [⟨"    P1", some 5000⟩, ⟨"    P2", some 10⟩]⟩

/-- Witness for C7: the 5000-amount row passes the 3000 threshold. -/
theorem c7_high_ca_threshold_witness :
    (⟨"    P1", some 5000⟩ : SummaryRow) ∈ ResourceSummaryWorker.high_ca c7frame :=
  ((c7_high_ca_threshold c7frame).1 _).mpr
    ⟨rfl, by simp [c7frame], ⟨5000, rfl, by norm_num⟩⟩

/-- C8: in the rendered summary the two writers agree, and on an indented
(project) row a numeric Ecart cell is filled light green exactly when its
value is strictly positive, light red exactly when strictly negative, and not
filled at zero; a non-indented (resource header) row never gets an Ecart
fill. -/
theorem c8_ecart_fill_colors (b : Bool) (first : String) (c : XlCell) (v : ℚ) :
    (ExcelHandler.write_excel_ecart_fill b first c
        = ExcelHandler.write_multiple_sheets_ecart_fill b first c)
    ∧ (isIndented first = true →
        (ExcelHandler.write_excel_ecart_fill true first (.num v) = some lightGreen
            ↔ 0 < v)
        ∧ (ExcelHandler.write_excel_ecart_fill true first (.num v) = some lightRed
            ↔ v < 0)
        ∧ (v = 0 → ExcelHandler.write_excel_ecart_fill true first (.num v) = none))
    ∧ (isIndented first = false →
        ExcelHandler.write_excel_ecart_fill true first c = none) := by
  refine ⟨rfl, ?_, ?_⟩
  · intro hst
    refine ⟨?_, ?_, ?_⟩
    · by_cases h0 : 0 < v
      · simp [ExcelHandler.write_excel_ecart_fill, hst, h0]
      · by_cases h1 : v < 0
        · simp [ExcelHandler.write_excel_ecart_fill, hst, h0, h1, lightGreen, lightRed]
        · simp [ExcelHandler.write_excel_ecart_fill, hst, h0, h1]
    · by_cases h0 : 0 < v
      · have h1 : ¬ v < 0 := by linarith
        simp [ExcelHandler.write_excel_ecart_fill, hst, h0, h1, lightGreen, lightRed]
      · by_cases h1 : v < 0
        · simp [ExcelHandler.write_excel_ecart_fill, hst, h0, h1]
        · simp [ExcelHandler.write_excel_ecart_fill, hst, h0, h1]
    · intro hv
      subst hv
      simp [ExcelHandler.write_excel_ecart_fill, hst]
  · intro hst
    simp [ExcelHandler.write_excel_ecart_fill, hst]

/-- Witness for C8: an indented row with Ecart 2 is filled light green; a
non-indented resource row with the same Ecart gets no fill. -/
theorem c8_ecart_fill_colors_witness :
    ExcelHandler.write_excel_ecart_fill true "    P1" (.num 2) = some lightGreen
    ∧ ExcelHandler.write_excel_ecart_fill true "Consultant" (.num 2) = none :=
  ⟨((c8_ecart_fill_colors true "    P1" (.num 2) 2).2.1 (by decide)).1.mpr (by norm_num),
   (c8_ecart_fill_colors true "Consultant" (.num 2) 2).2.2 (by decide)⟩
